import Mathlib

/-!
# Locate API client and heartbeat handler

A shallow embedding of `api/locate/client.go` (the package-level query
selection of `init`, `Client.get`, `Client.Nearest`) and of
`handler/heartbeat.go` (`Heartbeat`, `read`, `setReadDeadline`), with the
default control handlers of the websocket library that run inside
`ws.ReadMessage()`.

Library calls (`path.Join`, `url.Values.Encode`, `url.URL.String`, `url.Parse`,
`json.Unmarshal`, `http.Client.Do`, `websocket.Conn.ReadMessage`, `time.Now`)
are inputs of the model: they are fields of `Lib`, of `HTTPClient` and of
`Env`, or the list of read results fed to the read loop.  Effects are recorded
explicitly: the requests handed to `HTTPClient.Do`, and the operations performed
on the websocket connection.  Printing and logging are left out.
-/

namespace Locate

/-! ## Data model of `api/locate/client.go` -/

/-- Go `error` values that `Nearest` can return.  The two package variables are
allocated once by `errors.New` in this package and compared by identity, so each
is a constructor of its own.  Every other error value is an `errorString`, known
by its message alone: the value built by `errors.New` in `Nearest`, and the
errors the libraries hand back, which `get` and `Nearest` return as they are
without looking at their type. -/
inductive GoError where
  | noAvailableServers
  | noUserAgent
  | errorString (s : String)
  deriving DecidableEq, Repr

/-- The package variable `ErrNoAvailableServers`. -/
def ErrNoAvailableServers : GoError := GoError.noAvailableServers

/-- The package variable `ErrNoUserAgent`. -/
def ErrNoUserAgent : GoError := GoError.noUserAgent

/-- The error of `http.NewRequestWithContext` on a nil context. -/
def GoError.nilContext : GoError := GoError.errorString "net/http: nil Context"

/-- The error of `url.Parse`, with its message. -/
def GoError.urlParse (msg : String) : GoError := GoError.errorString msg

/-- The error of `HTTPClient.Do`, with its message. -/
def GoError.transport (msg : String) : GoError := GoError.errorString msg

/-- The error of `ioutil.ReadAll`, with its message. -/
def GoError.readBody (msg : String) : GoError := GoError.errorString msg

/-- The method `Error()` of an error value: its message. -/
def GoError.Error : GoError → String
  | .noAvailableServers => "no available M-Lab servers"
  | .noUserAgent => "client has no user-agent specified"
  | .errorString s => s

/-- A `context.Context` interface value: the nil interface, or some context. -/
inductive Context where
  | nil
  | ctx (name : String)
  deriving DecidableEq, Repr

/-- The fields of `url.URL` that `Nearest` reads or writes. -/
structure URL where
  Scheme : String
  Host : String
  Path : String
  RawQuery : String
  deriving DecidableEq, Repr

/-- The type `url.Values`, a map from a key to its list of values. -/
abbrev Values := List (String × List String)

/-- The method `Values.Set`: the key is bound to the single value, replacing what
it was bound to. -/
def Values.Set (v : Values) (key value : String) : Values :=
  (key, [value]) :: v.filter (fun kv => kv.1 ≠ key)

/-- An `http.Request` as built by `get`. -/
structure Request where
  ctx : Context
  Method : String
  URL : URL
  Header : List (String × String)
  deriving DecidableEq, Repr

/-- The method `Header.Set` on the header of a request. -/
def Request.SetHeader (req : Request) (key value : String) : Request :=
  { req with Header := (key, value) :: req.Header.filter (fun kv => kv.1 ≠ key) }

/-- An `http.Response`: the status code, and what `ioutil.ReadAll` gives on its
body (the bytes read and the read error, if any). -/
structure Response where
  StatusCode : Int
  Body : List UInt8
  BodyErr : Option String
  deriving DecidableEq, Repr

/-- The `http.Client` of a `Client`: its method `Do`. -/
structure HTTPClient where
  Do : Request → Except String Response

/-- Modelled from the spec: the type `v2.Error` of package `api/v2`, of which
`Nearest` reads the title and the detail (`error: {title, detail}`). -/
structure V2Error where
  Title : String
  Detail : String
  deriving DecidableEq, Repr

/-- Modelled from the spec: the type `v2.Target` of package `api/v2`, an entry of
`results` (`{machine, url, ...}`). -/
structure Target where
  Machine : String
  URLs : List (String × String)
  deriving DecidableEq, Repr

/-- Modelled from the spec: the type `v2.NearestResult` of package `api/v2`, with
the two fields `Nearest` reads.  `Error` is a pointer (`none` is nil) and
`Results` is a slice (`none` is the nil slice, `some []` an empty one). -/
structure NearestResult where
  Error : Option V2Error
  Results : Option (List Target)
  deriving DecidableEq, Repr

/-- The library functions `Nearest` and `get` call. -/
structure Lib where
  /-- The function `path.Join` on two elements. -/
  pathJoin : String → String → String
  /-- The method `URL.Query`: the parsed `RawQuery`. -/
  query : String → Values
  /-- The method `Values.Encode`. -/
  encode : Values → String
  /-- The method `URL.String`. -/
  urlString : URL → String
  /-- The function `url.Parse`, called by `http.NewRequestWithContext`. -/
  urlParse : String → Except String URL
  /-- The function `json.Unmarshal` into a fresh `v2.NearestResult`; on failure,
  the message of the error it returns. -/
  unmarshal : List UInt8 → Except String NearestResult

/-- The struct `Client`.  `BaseURL` is a pointer in the source and is
dereferenced on the first line of `Nearest`; a client here has one. -/
structure Client where
  HTTPClient : HTTPClient
  UserAgent : String
  BaseURL : URL

/-- The constant `http.StatusOK`. -/
def StatusOK : Int := 200

/-- The constant `http.MethodGet`. -/
def MethodGet : String := "GET"

/-- A status in the 2xx class. -/
def is2xx (status : Int) : Prop := 200 ≤ status ∧ status ≤ 299

instance (status : Int) : Decidable (is2xx status) := by
  unfold is2xx; infer_instance

/-! ## Operations of `api/locate/client.go` -/

/-- The function `flag.String`: it registers a flag and returns a pointer to a
variable that holds `value`, the default, until `flag.Parse` runs.  The model
gives what the pointer holds right after the call. -/
def flagString (_name value _usage : String) : String := value

/-- The selection of `queryType` and `queryValue` in `init`.  The three flags
are registered and their variables are read at once, in the same function,
before the command line is parsed.  When no branch is taken both package
variables keep their zero value. -/
def init : String × String :=
  let querySite := flagString "site" "" "Specify the server site"
  let queryCountry := flagString "country" "" "Specify the country to select servers from"
  let queryRegion := flagString "region" ""
    "Specify the region to select servers from (ISO 3166-2 formatted)"
  if querySite ≠ "" then ("site", querySite)
  else if queryCountry ≠ "" then ("country", queryCountry)
  else if queryRegion ≠ "" then ("region", queryRegion)
  else ("", "")

/-- The function `http.NewRequestWithContext` for the method `GET` and no body:
it refuses a nil context, then parses the URL. -/
def NewRequestWithContext (lib : Lib) (ctx : Context) (method url : String) :
    Except GoError Request :=
  match ctx with
  | .nil => .error GoError.nilContext
  | .ctx _ =>
    match lib.urlParse url with
    | .error msg => .error (GoError.urlParse msg)
    | .ok u => .ok { ctx := ctx, Method := method, URL := u, Header := [] }

/-- What `get` returns, with the requests it handed to `HTTPClient.Do`. -/
structure GetResult where
  data : List UInt8
  status : Int
  err : Option GoError
  sent : List Request
  deriving DecidableEq, Repr

/-- The method `Client.get`. -/
def Client.get (lib : Lib) (c : Client) (ctx : Context) (URL : String) : GetResult :=
  match NewRequestWithContext lib ctx MethodGet URL with
  | .error err => { data := [], status := 0, err := some err, sent := [] }
  | .ok req =>
    if c.UserAgent = "" then
      { data := [], status := 0, err := some ErrNoUserAgent, sent := [] }
    else
      let req := req.SetHeader "User-Agent" c.UserAgent
      match c.HTTPClient.Do req with
      | .error msg => { data := [], status := 0, err := some (GoError.transport msg), sent := [req] }
      | .ok resp =>
        { data := resp.Body, status := resp.StatusCode,
          err := resp.BodyErr.map GoError.readBody, sent := [req] }

/-- What `Nearest` returns (`targets = none` is the nil slice, `err = none` the
nil error), with the requests handed to `HTTPClient.Do` on the way. -/
structure Outcome where
  targets : Option (List Target)
  err : Option GoError
  sent : List Request
  deriving DecidableEq, Repr

/-- The address `Nearest` requests: the base URL with the service joined to its
path and the query parameter `queryType=queryValue` set. -/
def requestURL (lib : Lib) (queryType queryValue : String) (c : Client) (service : String) :
    URL :=
  let reqURL := c.BaseURL
  let reqURL := { reqURL with Path := lib.pathJoin reqURL.Path service }
  let q := lib.query reqURL.RawQuery
  let q := q.Set queryType queryValue
  { reqURL with RawQuery := lib.encode q }

/-- The part of `Nearest` after the reply is decoded: the status and error check,
then the results check. -/
def classify (status : Int) (reply : NearestResult) : Option (List Target) × Option GoError :=
  match decide (status ≠ StatusOK), reply.Error with
  | true, some e => (none, some (GoError.errorString (e.Title ++ ": " ++ e.Detail)))
  | _, _ =>
    match reply.Results with
    | none => (none, some ErrNoAvailableServers)
    | some results => (some results, none)

/-- The part of `Nearest` after the call of `get`, on what `get` returned: the
error check, the decoding of the body and the checks on the reply. -/
def reply (lib : Lib) (r : GetResult) : Outcome :=
  match r.err with
  | some err => { targets := none, err := some err, sent := r.sent }
  | none =>
    match lib.unmarshal r.data with
    | .error msg => { targets := none, err := some (GoError.errorString msg), sent := r.sent }
    | .ok reply =>
      { targets := (classify r.status reply).1, err := (classify r.status reply).2,
        sent := r.sent }

/-- The address `Nearest` hands to `get`: `reqURL.String()`. -/
def requestAddr (lib : Lib) (queryType queryValue : String) (c : Client) (service : String) :
    String :=
  lib.urlString (requestURL lib queryType queryValue c service)

/-- The method `Client.Nearest`; `queryType` and `queryValue` are the package
variables set by `init`. -/
def Client.Nearest (lib : Lib) (queryType queryValue : String) (c : Client) (ctx : Context)
    (service : String) : Outcome :=
  reply lib (c.get lib ctx (requestAddr lib queryType queryValue c service))

/-- The query operation for a filter given on the command line as the flags
`site`, `country` and `region`: `init` runs when the package is initialised,
`flag.Parse` then stores the three values in the flag variables, which nothing
reads again, and `Nearest` runs with the `queryType` and `queryValue` that
`init` has set. -/
def query (lib : Lib) (_site _country _region : String) (c : Client)
    (ctx : Context) (service : String) : Outcome :=
  c.Nearest lib init.1 init.2 ctx service

end Locate

namespace Handler

/-! ## Data model of `handler/heartbeat.go` -/

/-- A `time.Time` or a `time.Duration`, in nanoseconds. -/
abbrev Time := Int

/-- The constant `time.Second`. -/
def Second : Int := 1000000000

/-- The constant `websocket.CloseMessage`. -/
def CloseMessage : Int := 8

/-- The constant `websocket.PongMessage`. -/
def PongMessage : Int := 10

/-- The constant `websocket.CloseNoStatusReceived`. -/
def CloseNoStatusReceived : Nat := 1005

/-- A control frame of the peer, which the websocket library handles inside
`ws.ReadMessage()`: a ping or a pong with its application data, or a close with
its code and text. -/
inductive Control where
  | ping (appData : List UInt8)
  | pong (appData : List UInt8)
  | close (code : Nat) (text : List UInt8)
  deriving DecidableEq, Repr

/-- What one call of `ws.ReadMessage()` does and returns: the control frames of
the peer it handled before returning, in order, then the message type, the
message (`none` is the nil slice, `some []` an empty payload) and the error
(`none` is nil).  On success the library returns the slice `ReadAll` has
allocated, which is not nil. -/
structure ReadResult where
  control : List Control := []
  messageType : Int
  message : Option (List UInt8)
  err : Option String
  deriving DecidableEq, Repr

/-- An operation the handler performs on the websocket connection. -/
inductive ConnOp where
  | SetReadDeadline (t : Time)
  | ReadMessage (r : ReadResult)
  | WriteControl (messageType : Int) (data : Option (List UInt8)) (deadline : Time)
  | Close
  deriving DecidableEq, Repr

/-- The surroundings of the read loop: `now k` is what the `k`-th call of
`time.Now()` by the handler returns, and `readDeadline` is the package variable
of that name (initialised from `static.DefaultWebsocketReadDeadline`). -/
structure Env where
  now : Nat → Time
  readDeadline : Int

/-- The state of a websocket connection and of the clock: the number of calls of
`time.Now()` the handler has made so far, the read deadline in force (`none`
before any is set), whether the connection was closed, and the operations the
handler performed on it, oldest first. -/
structure Conn where
  clock : Nat
  deadline : Option Time
  closed : Bool
  ops : List ConnOp
  deriving DecidableEq, Repr

/-- A connection as `upgrader.Upgrade` hands it over at clock reading `k`. -/
def Conn.fresh (k : Nat) : Conn :=
  { clock := k, deadline := none, closed := false, ops := [] }

/-! ## Operations of `handler/heartbeat.go` -/

/-- The function `setReadDeadline`. -/
def setReadDeadline (env : Env) (ws : Conn) : Conn :=
  let deadline := env.now ws.clock + env.readDeadline
  { ws with clock := ws.clock + 1, deadline := some deadline,
            ops := ws.ops ++ [ConnOp.SetReadDeadline deadline] }

/-- The pong of the read loop:
`ws.WriteControl(websocket.PongMessage, nil, time.Now().Add(time.Second))`. -/
def writePong (env : Env) (ws : Conn) : Conn :=
  { ws with clock := ws.clock + 1,
            ops := ws.ops ++ [ConnOp.WriteControl PongMessage none (env.now ws.clock + Second)] }

/-- The deferred `ws.Close()` of `read`. -/
def Conn.Close (ws : Conn) : Conn :=
  { ws with closed := true, ops := ws.ops ++ [ConnOp.Close] }

/-- The `for` loop of `read`, run on the results of the successive calls of
`ws.ReadMessage()`.  A read error leaves the loop and the function, so the
deferred `Close` runs and the later results are never asked for; when the list
is used up the loop is waiting in `ReadMessage`. -/
def readLoop (env : Env) : List ReadResult → Conn → Conn
  | [], ws => ws
  | r :: rest, ws =>
    let ws := { ws with ops := ws.ops ++ [ConnOp.ReadMessage r] }
    match r.err with
    | some _ => ws.Close
    | none =>
      match r.message with
      | some _ => readLoop env rest (writePong env (setReadDeadline env ws))
      | none => readLoop env rest ws

/-- The function `read`. -/
def read (env : Env) (reads : List ReadResult) (ws : Conn) : Conn :=
  readLoop env reads (setReadDeadline env ws)

/-- The handler `Client.Heartbeat`: `upgrade` is what `upgrader.Upgrade` returns.
On failure the handler logs and returns and there is no connection; on success
`read` runs on the connection. -/
def Heartbeat (env : Env) (upgrade : Except String Conn) (reads : List ReadResult) :
    Option Conn :=
  match upgrade with
  | .error _ => none
  | .ok ws => some (read env reads ws)

/-- The function `websocket.FormatCloseMessage`: no payload for the code
`CloseNoStatusReceived`, otherwise the code on two bytes followed by the
text. -/
def FormatCloseMessage (closeCode : Nat) (text : List UInt8) : List UInt8 :=
  if closeCode = CloseNoStatusReceived then []
  else UInt8.ofNat (closeCode / 256) :: UInt8.ofNat (closeCode % 256) :: text

/-- The control message the library writes on the connection when it handles a
control frame of the peer.  The handler sets no ping, pong or close handler, so
the default ones run: a ping is answered by a pong with the application data of
the ping, a close by a close message with the same code and no text, and a pong
is not answered. -/
def defaultReply : Control → Option (Int × Option (List UInt8))
  | .ping appData => some (PongMessage, some appData)
  | .pong _ => none
  | .close code _ => some (CloseMessage, some (FormatCloseMessage code []))

/-- The messages the library writes inside one call of `ws.ReadMessage()`. -/
def libraryWrites (r : ReadResult) : List (Int × Option (List UInt8)) :=
  r.control.filterMap defaultReply

/-- The messages the handler itself writes, among the operations on a
connection: type and payload of each `WriteControl`. -/
def handlerWritten : List ConnOp → List (Int × Option (List UInt8))
  | [] => []
  | ConnOp.WriteControl t d _ :: ops => (t, d) :: handlerWritten ops
  | _ :: ops => handlerWritten ops

/-- The messages the server writes to the connection, among the operations on
it, in order: those the library writes inside each `ReadMessage`, and those of
the handler. -/
def written : List ConnOp → List (Int × Option (List UInt8))
  | [] => []
  | ConnOp.ReadMessage r :: ops => libraryWrites r ++ written ops
  | ConnOp.WriteControl t d _ :: ops => (t, d) :: written ops
  | _ :: ops => written ops

/-- Time passes while the loop waits in `ReadMessage` in the state `ws`: the
reading of the clock that follows the read is later than the last reading
before it. -/
def clockAdvances (env : Env) (ws : Conn) : Prop :=
  env.now (ws.clock - 1) < env.now ws.clock

instance (env : Env) (ws : Conn) : Decidable (clockAdvances env ws) := by
  unfold clockAdvances; infer_instance

/-- No read result of the list carries an error. -/
def noError (reads : List ReadResult) : Prop := ∀ r ∈ reads, r.err = none

instance (reads : List ReadResult) : Decidable (noError reads) := by
  unfold noError; infer_instance

end Handler

/-! ## Concrete surroundings used in the examples -/

namespace Locate

/-- A library in which every call succeeds: paths are concatenated, the query
is rendered as `key=value`, the URL is parsed back as a path, and a body
decodes to one target and no error. -/
def okLib : Lib where
  pathJoin a b := a ++ b
  query _ := []
  encode q := String.intercalate "&" (q.map (fun kv => kv.1 ++ "=" ++ String.join kv.2))
  urlString u := u.Scheme ++ "://" ++ u.Host ++ u.Path ++ "?" ++ u.RawQuery
  urlParse s := .ok { Scheme := "", Host := "", Path := s, RawQuery := "" }
  unmarshal _ := .ok { Error := none, Results := some [{ Machine := "mlab1", URLs := [] }] }

/-- An HTTP client whose backend answers every request with the given status
and an empty body, read without error. -/
def backend (status : Int) : HTTPClient where
  Do _ := .ok { StatusCode := status, Body := [], BodyErr := none }

/-- A client of the backend that answers with `status`. -/
def client (userAgent : String) (status : Int) : Client where
  HTTPClient := backend status
  UserAgent := userAgent
  BaseURL := { Scheme := "https", Host := "locate.measurementlab.net", Path := "/v2/nearest/",
               RawQuery := "" }

/-- A library like `okLib` whose decoder returns the given reply. -/
def replyLib (reply : NearestResult) : Lib :=
  { okLib with unmarshal := fun _ => .ok reply }

/-- A library like `okLib` whose decoder fails with the given message. -/
def badLib (msg : String) : Lib :=
  { okLib with unmarshal := fun _ => .error msg }

end Locate

namespace Handler

/-- A clock that advances by one nanosecond at every reading, with a read
deadline of thirty seconds. -/
def tickEnv : Env where
  now k := (k : Int)
  readDeadline := 30 * Second

/-- A text message read without error, with the given payload. -/
def msg (payload : Option (List UInt8)) : ReadResult :=
  { messageType := 1, message := payload, err := none }

/-- A read that fails. -/
def readErr : ReadResult :=
  { messageType := 0, message := none, err := some "i/o timeout" }

/-- A text message read without error, after a ping of the peer with the
application data `appData`. -/
def pinged (appData payload : List UInt8) : ReadResult :=
  { control := [Control.ping appData], messageType := 1, message := some payload, err := none }

/-- A read that ends on a close frame of the peer with the code 1000. -/
def peerClosed : ReadResult :=
  { control := [Control.close 1000 []], messageType := -1, message := none,
    err := some "websocket: close 1000 (normal)" }

end Handler

/-! ## The client: `init`, `get`, `Nearest` -/

namespace Locate

theorem reply_sent (lib : Lib) (r : GetResult) : (reply lib r).sent = r.sent := by
  unfold reply
  cases r.err with
  | some e => rfl
  | none =>
    simp only
    cases lib.unmarshal r.data <;> rfl

theorem reply_of_get_err (lib : Lib) (r : GetResult) (e : GoError) (h : r.err = some e) :
    reply lib r = { targets := none, err := some e, sent := r.sent } := by
  simp only [reply, h]

theorem reply_of_decode_err (lib : Lib) (r : GetResult) (msg : String)
    (hget : r.err = none) (hdec : lib.unmarshal r.data = .error msg) :
    reply lib r = { targets := none, err := some (GoError.errorString msg), sent := r.sent } := by
  simp only [reply, hget, hdec]

theorem reply_of_decode_ok (lib : Lib) (r : GetResult) (rep : NearestResult)
    (hget : r.err = none) (hdec : lib.unmarshal r.data = .ok rep) :
    reply lib r =
      { targets := (classify r.status rep).1, err := (classify r.status rep).2,
        sent := r.sent } := by
  simp only [reply, hget, hdec]

theorem classify_remote (status : Int) (rep : NearestResult) (e : V2Error)
    (hs : status ≠ StatusOK) (he : rep.Error = some e) :
    classify status rep = (none, some (GoError.errorString (e.Title ++ ": " ++ e.Detail))) := by
  simp [classify, hs, he]

theorem classify_no_error (status : Int) (rep : NearestResult) (he : rep.Error = none) :
    classify status rep =
      match rep.Results with
      | none => (none, some ErrNoAvailableServers)
      | some results => (some results, none) := by
  unfold classify
  rw [he]
  cases decide (status ≠ StatusOK) <;> rfl

theorem classify_ok (rep : NearestResult) :
    classify StatusOK rep =
      match rep.Results with
      | none => (none, some ErrNoAvailableServers)
      | some results => (some results, none) := by
  unfold classify
  cases rep.Error <;> rfl

theorem not_ok_of_not_2xx (status : Int) (h : ¬ is2xx status) : status ≠ StatusOK := by
  intro hs
  apply h
  rw [hs]
  decide

theorem get_empty_user_agent (lib : Lib) (c : Client) (ctx : Context) (URL : String)
    (h : c.UserAgent = "") :
    (c.get lib ctx URL).sent = [] ∧
    (∀ req, NewRequestWithContext lib ctx MethodGet URL = .ok req →
      (c.get lib ctx URL).err = some ErrNoUserAgent) ∧
    (∀ e, NewRequestWithContext lib ctx MethodGet URL = .error e →
      (c.get lib ctx URL).err = some e) := by
  unfold Client.get
  cases hreq : NewRequestWithContext lib ctx MethodGet URL with
  | error e => simp
  | ok req => simp [h]

theorem get_sends (lib : Lib) (c : Client) (name : String) (URL : String) (u : Locate.URL)
    (hua : c.UserAgent ≠ "") (hparse : lib.urlParse URL = .ok u) :
    (c.get lib (Context.ctx name) URL).sent =
      [{ ctx := Context.ctx name, Method := MethodGet, URL := u,
         Header := [("User-Agent", c.UserAgent)] }] := by
  unfold Client.get NewRequestWithContext
  simp only [hparse, hua, if_false]
  cases c.HTTPClient.Do
      (Request.SetHeader { ctx := Context.ctx name, Method := MethodGet, URL := u, Header := [] }
        "User-Agent" c.UserAgent) <;> simp [Request.SetHeader]

theorem get_ok (lib : Lib) (c : Client) (name : String) (URL : String) (u : Locate.URL)
    (resp : Response) (hua : c.UserAgent ≠ "") (hparse : lib.urlParse URL = .ok u)
    (hdo : c.HTTPClient.Do (Request.mk (Context.ctx name) MethodGet u
      [("User-Agent", c.UserAgent)]) = .ok resp) :
    c.get lib (Context.ctx name) URL =
      { data := resp.Body, status := resp.StatusCode,
        err := resp.BodyErr.map GoError.readBody,
        sent := [{ ctx := Context.ctx name, Method := MethodGet, URL := u,
                   Header := [("User-Agent", c.UserAgent)] }] } := by
  have hreq : Request.SetHeader
      { ctx := Context.ctx name, Method := MethodGet, URL := u, Header := [] }
      "User-Agent" c.UserAgent =
      { ctx := Context.ctx name, Method := MethodGet, URL := u,
        Header := [("User-Agent", c.UserAgent)] } := by
    simp [Request.SetHeader]
  unfold Client.get NewRequestWithContext
  simp only [hparse, hua, if_false, hreq, hdo]

end Locate

/-! ## Claims on the client -/

namespace Locate

/-- C1, as stated, fails: with no field set, and with `site` and `country` both
set, the query operation hands a request to the backend and returns the
targets of the backend with a nil error. -/
theorem query_invalid_filter_counterexample :
    (query okLib "" "" "" (client "ua" 200) (Context.ctx "bg") "ndt/ndt7").err = none ∧
    (query okLib "" "" "" (client "ua" 200) (Context.ctx "bg") "ndt/ndt7").targets =
      some [{ Machine := "mlab1", URLs := [] }] ∧
    (query okLib "" "" "" (client "ua" 200) (Context.ctx "bg") "ndt/ndt7").sent.length = 1 ∧
    (query okLib "MIL" "IT" "" (client "ua" 200) (Context.ctx "bg") "ndt/ndt7").err = none ∧
    (query okLib "MIL" "IT" "" (client "ua" 200) (Context.ctx "bg") "ndt/ndt7").targets =
      some [{ Machine := "mlab1", URLs := [] }] ∧
    (query okLib "MIL" "IT" "" (client "ua" 200) (Context.ctx "bg") "ndt/ndt7").sent.length = 1 ∧
    requestAddr okLib init.1 init.2 (client "ua" 200) "ndt/ndt7" =
      "https://locate.measurementlab.net/v2/nearest/ndt/ndt7?=" := by
  decide

/-- C1, amended: for every filter, whatever the number of fields set, the query
operation does not reject the filter.  For a client with a user agent, on a
non-nil context and an address that parses, it hands exactly one request to the
backend, and when the backend answers with a body that decodes to results and
no error it returns those results and a nil error. -/
theorem query_sends_request (lib : Lib) (site country region : String) (c : Client)
    (name service : String) (u : URL) (hua : c.UserAgent ≠ "")
    (hparse : lib.urlParse (requestAddr lib init.1 init.2 c service) = .ok u) :
    (query lib site country region c (Context.ctx name) service).sent =
      [{ ctx := Context.ctx name, Method := MethodGet, URL := u,
         Header := [("User-Agent", c.UserAgent)] }] ∧
    ∀ resp rep results,
      c.HTTPClient.Do (Request.mk (Context.ctx name) MethodGet u
        [("User-Agent", c.UserAgent)]) = .ok resp →
      resp.BodyErr = none → lib.unmarshal resp.Body = .ok rep →
      rep.Error = none → rep.Results = some results →
      (query lib site country region c (Context.ctx name) service).targets = some results ∧
      (query lib site country region c (Context.ctx name) service).err = none := by
  refine ⟨?_, ?_⟩
  · unfold query Client.Nearest
    rw [reply_sent]
    exact get_sends lib c name _ u hua hparse
  · intro resp rep results hdo hbody hdec hE hR
    unfold query Client.Nearest
    rw [get_ok lib c name _ u resp hua hparse hdo]
    rw [reply_of_decode_ok lib _ rep (by simp [hbody]) hdec, classify_no_error _ rep hE, hR]
    exact ⟨rfl, rfl⟩

theorem query_sends_request_witness :
    ((client "ua" 200).UserAgent ≠ "") ∧
    (query okLib "MIL" "IT" "" (client "ua" 200) (Context.ctx "bg") "ndt/ndt7").sent.length = 1 ∧
    (query okLib "MIL" "IT" "" (client "ua" 200) (Context.ctx "bg") "ndt/ndt7").targets =
      some [{ Machine := "mlab1", URLs := [] }] :=
  ⟨by decide,
   congrArg List.length
     (query_sends_request okLib "MIL" "IT" "" (client "ua" 200) "bg" "ndt/ndt7"
        { Scheme := "", Host := "", RawQuery := "",
          Path := "https://locate.measurementlab.net/v2/nearest/ndt/ndt7?=" }
        (by decide) rfl).1,
   ((query_sends_request okLib "MIL" "IT" "" (client "ua" 200) "bg" "ndt/ndt7"
        { Scheme := "", Host := "", RawQuery := "",
          Path := "https://locate.measurementlab.net/v2/nearest/ndt/ndt7?=" }
        (by decide) rfl).2 _ _ _ rfl rfl rfl rfl rfl).1⟩

/-- C2, as stated, fails: on a nil context a client with an empty user agent gets
the error of the request construction, not `ErrNoUserAgent`. -/
theorem nearest_empty_user_agent_counterexample :
    (client "" 200).UserAgent = "" ∧
    ((client "" 200).Nearest okLib "site" "MIL" Context.nil "ndt/ndt7").err =
      some GoError.nilContext ∧
    ((client "" 200).Nearest okLib "site" "MIL" Context.nil "ndt/ndt7").err ≠
      some ErrNoUserAgent := by
  decide

/-- C2, amended: for every client whose user agent is empty, and every context,
base URL and service, `Nearest` returns no targets and an error, and hands no
request to `HTTPClient.Do`; the error is `ErrNoUserAgent` whenever
`http.NewRequestWithContext` accepts the context and the address, and the error
of `http.NewRequestWithContext` otherwise. -/
theorem nearest_empty_user_agent (lib : Lib) (qt qv : String) (c : Client) (ctx : Context)
    (service : String) (h : c.UserAgent = "") :
    (c.Nearest lib qt qv ctx service).targets = none ∧
    (c.Nearest lib qt qv ctx service).sent = [] ∧
    (c.Nearest lib qt qv ctx service).err ≠ none ∧
    (∀ req, NewRequestWithContext lib ctx MethodGet (requestAddr lib qt qv c service) = .ok req →
      (c.Nearest lib qt qv ctx service).err = some ErrNoUserAgent) ∧
    (∀ e, NewRequestWithContext lib ctx MethodGet (requestAddr lib qt qv c service) = .error e →
      (c.Nearest lib qt qv ctx service).err = some e) := by
  obtain ⟨hsent, hok, herr⟩ := get_empty_user_agent lib c ctx (requestAddr lib qt qv c service) h
  have key : ∃ e, (c.get lib ctx (requestAddr lib qt qv c service)).err = some e := by
    cases hreq : NewRequestWithContext lib ctx MethodGet (requestAddr lib qt qv c service) with
    | error e => exact ⟨e, herr e hreq⟩
    | ok req => exact ⟨_, hok req hreq⟩
  obtain ⟨e, he⟩ := key
  have hN : c.Nearest lib qt qv ctx service =
      { targets := none, err := some e, sent := [] } := by
    unfold Client.Nearest
    rw [reply_of_get_err lib _ e he, hsent]
  rw [hN]
  refine ⟨rfl, rfl, by simp, ?_, ?_⟩
  · intro req hreq
    have := hok req hreq
    rw [he] at this
    simpa using this
  · intro e2 hreq
    have := herr e2 hreq
    rw [he] at this
    simpa using this

theorem nearest_empty_user_agent_witness :
    (client "" 200).UserAgent = "" ∧
    ((client "" 200).Nearest okLib "site" "MIL" (Context.ctx "bg") "ndt/ndt7").err =
      some ErrNoUserAgent ∧
    ((client "" 200).Nearest okLib "site" "MIL" (Context.ctx "bg") "ndt/ndt7").sent = [] :=
  ⟨rfl,
   (nearest_empty_user_agent okLib "site" "MIL" (client "" 200) (Context.ctx "bg") "ndt/ndt7"
      rfl).2.2.2.1 _ rfl,
   (nearest_empty_user_agent okLib "site" "MIL" (client "" 200) (Context.ctx "bg") "ndt/ndt7"
      rfl).2.1⟩

end Locate

namespace Locate

/-- C3: when `get` returns a 2xx status and a body that decodes to a reply with
neither results nor error, `Nearest` returns `ErrNoAvailableServers` and no
targets. -/
theorem nearest_no_results_no_error (lib : Lib) (qt qv : String) (c : Client) (ctx : Context)
    (service : String) (rep : NearestResult)
    (hget : (c.get lib ctx (requestAddr lib qt qv c service)).err = none)
    (_h2xx : is2xx (c.get lib ctx (requestAddr lib qt qv c service)).status)
    (hdec : lib.unmarshal (c.get lib ctx (requestAddr lib qt qv c service)).data = .ok rep)
    (hE : rep.Error = none) (hR : rep.Results = none) :
    (c.Nearest lib qt qv ctx service).targets = none ∧
    (c.Nearest lib qt qv ctx service).err = some ErrNoAvailableServers := by
  unfold Client.Nearest
  rw [reply_of_decode_ok lib _ rep hget hdec, classify_no_error _ rep hE, hR]
  exact ⟨rfl, rfl⟩

theorem nearest_no_results_no_error_witness :
    is2xx ((client "ua" 204).get (replyLib { Error := none, Results := none })
      (Context.ctx "bg") (requestAddr (replyLib { Error := none, Results := none })
        "site" "MIL" (client "ua" 204) "ndt/ndt7")).status ∧
    ((client "ua" 204).Nearest (replyLib { Error := none, Results := none }) "site" "MIL"
      (Context.ctx "bg") "ndt/ndt7").err = some ErrNoAvailableServers :=
  ⟨by decide,
   (nearest_no_results_no_error (replyLib { Error := none, Results := none }) "site" "MIL"
      (client "ua" 204) (Context.ctx "bg") "ndt/ndt7" { Error := none, Results := none }
      rfl (by decide) rfl rfl rfl).2⟩

/-- C4: when `get` returns a status outside the 2xx class and a body that decodes
to a reply with an error of some title and detail, `Nearest` returns no targets
and an error whose message is the title, then a colon and a space, then the
detail, whatever the results of the reply are. -/
theorem nearest_remote_error (lib : Lib) (qt qv : String) (c : Client) (ctx : Context)
    (service : String) (rep : NearestResult) (e : V2Error)
    (hget : (c.get lib ctx (requestAddr lib qt qv c service)).err = none)
    (hstatus : ¬ is2xx (c.get lib ctx (requestAddr lib qt qv c service)).status)
    (hdec : lib.unmarshal (c.get lib ctx (requestAddr lib qt qv c service)).data = .ok rep)
    (hE : rep.Error = some e) :
    (c.Nearest lib qt qv ctx service).targets = none ∧
    ∃ err, (c.Nearest lib qt qv ctx service).err = some err ∧
      err.Error = e.Title ++ ": " ++ e.Detail := by
  unfold Client.Nearest
  rw [reply_of_decode_ok lib _ rep hget hdec,
    classify_remote _ rep e (not_ok_of_not_2xx _ hstatus) hE]
  exact ⟨rfl, _, rfl, rfl⟩

theorem nearest_remote_error_witness :
    ¬ is2xx ((client "ua" 400).get
      (replyLib { Error := some { Title := "Bad Request", Detail := "unknown service" },
                  Results := some [{ Machine := "mlab1", URLs := [] }] })
      (Context.ctx "bg")
      "https://locate.measurementlab.net/v2/nearest/ndt/ndt7?site=MIL").status ∧
    ((client "ua" 400).Nearest
      (replyLib { Error := some { Title := "Bad Request", Detail := "unknown service" },
                  Results := some [{ Machine := "mlab1", URLs := [] }] })
      "site" "MIL" (Context.ctx "bg") "ndt/ndt7").targets = none :=
  ⟨by decide,
   (nearest_remote_error
      (replyLib { Error := some { Title := "Bad Request", Detail := "unknown service" },
                  Results := some [{ Machine := "mlab1", URLs := [] }] })
      "site" "MIL" (client "ua" 400) (Context.ctx "bg") "ndt/ndt7"
      { Error := some { Title := "Bad Request", Detail := "unknown service" },
        Results := some [{ Machine := "mlab1", URLs := [] }] }
      { Title := "Bad Request", Detail := "unknown service" }
      rfl (by decide) rfl rfl).1⟩

/-- C5, as stated, fails: at status 502, the error `Nearest` returns for a body
that does not decode has the same message as the remote error it returns for
a reply with the title `json` and the detail of the decoder's message, and
there are no targets in either case. -/
theorem nearest_decode_error_counterexample :
    ((client "ua" 502).Nearest
      (badLib "json: cannot unmarshal string into Go value of type v2.NearestResult")
      "" "" (Context.ctx "bg") "ndt/ndt7").targets = none ∧
    ((client "ua" 502).Nearest
      (replyLib { Error := some { Title := "json", Detail :=
          "cannot unmarshal string into Go value of type v2.NearestResult" },
                  Results := none })
      "" "" (Context.ctx "bg") "ndt/ndt7").err =
      some (GoError.errorString ("json" ++ ": " ++
        "cannot unmarshal string into Go value of type v2.NearestResult")) ∧
    ((client "ua" 502).Nearest
      (badLib "json: cannot unmarshal string into Go value of type v2.NearestResult")
      "" "" (Context.ctx "bg") "ndt/ndt7").err.map GoError.Error =
    ((client "ua" 502).Nearest
      (replyLib { Error := some { Title := "json", Detail :=
          "cannot unmarshal string into Go value of type v2.NearestResult" },
                  Results := none })
      "" "" (Context.ctx "bg") "ndt/ndt7").err.map GoError.Error := by
  decide

/-- C5, amended: when `get` returns a status outside the 2xx class and a body that
does not decode, `Nearest` returns no targets and the error of the decoder as it
is: its message is the message of the decoder.  It is not `ErrNoAvailableServers`
whenever the message of the decoder is not the message of
`ErrNoAvailableServers`. -/
theorem nearest_decode_error (lib : Lib) (qt qv : String) (c : Client) (ctx : Context)
    (service : String) (msg : String)
    (hget : (c.get lib ctx (requestAddr lib qt qv c service)).err = none)
    (_hstatus : ¬ is2xx (c.get lib ctx (requestAddr lib qt qv c service)).status)
    (hdec : lib.unmarshal (c.get lib ctx (requestAddr lib qt qv c service)).data = .error msg) :
    (c.Nearest lib qt qv ctx service).targets = none ∧
    (c.Nearest lib qt qv ctx service).err.map GoError.Error = some msg ∧
    (msg ≠ ErrNoAvailableServers.Error →
      (c.Nearest lib qt qv ctx service).err ≠ some ErrNoAvailableServers) ∧
    (c.Nearest lib qt qv ctx service).sent =
      (c.get lib ctx (requestAddr lib qt qv c service)).sent := by
  have hN : c.Nearest lib qt qv ctx service =
      { targets := none, err := some (GoError.errorString msg),
        sent := (c.get lib ctx (requestAddr lib qt qv c service)).sent } := by
    unfold Client.Nearest
    exact reply_of_decode_err lib _ msg hget hdec
  have hmsg : (c.Nearest lib qt qv ctx service).err.map GoError.Error = some msg := by
    rw [hN]
    rfl
  refine ⟨by rw [hN], hmsg, ?_, by rw [hN]⟩
  intro hne h
  rw [h] at hmsg
  exact hne (Option.some.inj hmsg).symm

theorem nearest_decode_error_witness :
    ¬ is2xx ((client "ua" 502).get (badLib "unexpected end of JSON input")
      (Context.ctx "bg")
      "https://locate.measurementlab.net/v2/nearest/ndt/ndt7?site=MIL").status ∧
    ((client "ua" 502).Nearest (badLib "unexpected end of JSON input") "site" "MIL"
      (Context.ctx "bg") "ndt/ndt7").err.map GoError.Error =
      some "unexpected end of JSON input" :=
  ⟨by decide,
   (nearest_decode_error (badLib "unexpected end of JSON input") "site" "MIL"
      (client "ua" 502) (Context.ctx "bg") "ndt/ndt7" "unexpected end of JSON input"
      rfl (by decide) rfl).2.1⟩

/-- C10, as stated, fails: on a status 500 with a body that decodes to results
and no error, `Nearest` returns the results and a nil error. -/
theorem nearest_not_ok_counterexample :
    ((client "ua" 500).get okLib (Context.ctx "bg")
      (requestAddr okLib "site" "MIL" (client "ua" 500) "ndt/ndt7")).status = 500 ∧
    okLib.unmarshal ((client "ua" 500).get okLib (Context.ctx "bg")
      (requestAddr okLib "site" "MIL" (client "ua" 500) "ndt/ndt7")).data =
      .ok { Error := none, Results := some [{ Machine := "mlab1", URLs := [] }] } ∧
    ((client "ua" 500).Nearest okLib "site" "MIL" (Context.ctx "bg") "ndt/ndt7").err = none ∧
    ((client "ua" 500).Nearest okLib "site" "MIL" (Context.ctx "bg") "ndt/ndt7").targets =
      some [{ Machine := "mlab1", URLs := [] }] :=
  ⟨rfl, rfl, rfl, rfl⟩

/-- C10, amended: when `get` returns a status other than 200 and a body that
decodes, `Nearest` returns no targets and the error built from title and detail
if the reply has an error, no targets and `ErrNoAvailableServers` if it has
neither error nor results, and the results with a nil error if it has results
and no error. -/
theorem nearest_not_ok (lib : Lib) (qt qv : String) (c : Client) (ctx : Context)
    (service : String) (rep : NearestResult)
    (hget : (c.get lib ctx (requestAddr lib qt qv c service)).err = none)
    (hstatus : (c.get lib ctx (requestAddr lib qt qv c service)).status ≠ StatusOK)
    (hdec : lib.unmarshal (c.get lib ctx (requestAddr lib qt qv c service)).data = .ok rep) :
    (∀ e, rep.Error = some e →
      (c.Nearest lib qt qv ctx service).targets = none ∧
      (c.Nearest lib qt qv ctx service).err =
        some (GoError.errorString (e.Title ++ ": " ++ e.Detail))) ∧
    (rep.Error = none → rep.Results = none →
      (c.Nearest lib qt qv ctx service).targets = none ∧
      (c.Nearest lib qt qv ctx service).err = some ErrNoAvailableServers) ∧
    (∀ results, rep.Error = none → rep.Results = some results →
      (c.Nearest lib qt qv ctx service).targets = some results ∧
      (c.Nearest lib qt qv ctx service).err = none) := by
  unfold Client.Nearest
  rw [reply_of_decode_ok lib _ rep hget hdec]
  refine ⟨?_, ?_, ?_⟩
  · intro e hE
    rw [classify_remote _ rep e hstatus hE]
    exact ⟨rfl, rfl⟩
  · intro hE hR
    rw [classify_no_error _ rep hE, hR]
    exact ⟨rfl, rfl⟩
  · intro results hE hR
    rw [classify_no_error _ rep hE, hR]
    exact ⟨rfl, rfl⟩

theorem nearest_not_ok_witness :
    ((client "ua" 500).get okLib (Context.ctx "bg")
      (requestAddr okLib "site" "MIL" (client "ua" 500) "ndt/ndt7")).status ≠ StatusOK ∧
    ((client "ua" 500).Nearest okLib "site" "MIL" (Context.ctx "bg") "ndt/ndt7").targets =
      some [{ Machine := "mlab1", URLs := [] }] :=
  ⟨by decide,
   ((nearest_not_ok okLib "site" "MIL" (client "ua" 500) (Context.ctx "bg") "ndt/ndt7"
      { Error := none, Results := some [{ Machine := "mlab1", URLs := [] }] }
      rfl (by decide) rfl).2.2 _ rfl rfl).1⟩

end Locate

/-! ## The heartbeat read loop -/

namespace Handler

theorem noError_nil : noError [] := by
  intro r hr
  cases hr

theorem noError_cons (r : ReadResult) (rest : List ReadResult) :
    noError (r :: rest) ↔ r.err = none ∧ noError rest := by
  unfold noError
  simp

theorem readLoop_nil (env : Env) (ws : Conn) : readLoop env [] ws = ws := rfl

theorem readLoop_error (env : Env) (r : ReadResult) (rest : List ReadResult) (ws : Conn)
    (e : String) (h : r.err = some e) :
    readLoop env (r :: rest) ws =
      Conn.Close { ws with ops := ws.ops ++ [ConnOp.ReadMessage r] } := by
  simp only [readLoop, h]

theorem readLoop_message (env : Env) (r : ReadResult) (rest : List ReadResult) (ws : Conn)
    (p : List UInt8) (herr : r.err = none) (hmsg : r.message = some p) :
    readLoop env (r :: rest) ws =
      readLoop env rest
        (writePong env (setReadDeadline env { ws with ops := ws.ops ++ [ConnOp.ReadMessage r] })) := by
  simp only [readLoop, herr, hmsg]

theorem readLoop_nil_message (env : Env) (r : ReadResult) (rest : List ReadResult) (ws : Conn)
    (herr : r.err = none) (hmsg : r.message = none) :
    readLoop env (r :: rest) ws =
      readLoop env rest { ws with ops := ws.ops ++ [ConnOp.ReadMessage r] } := by
  simp only [readLoop, herr, hmsg]

/-- Reads without error are handled one after the other: the loop on `a ++ b`
is the loop on `b` from the state the loop on `a` leaves. -/
theorem readLoop_append (env : Env) (a b : List ReadResult) (ws : Conn) (ha : noError a) :
    readLoop env (a ++ b) ws = readLoop env b (readLoop env a ws) := by
  induction a generalizing ws with
  | nil => rfl
  | cons r rest ih =>
    obtain ⟨herr, hrest⟩ := (noError_cons r rest).mp ha
    cases hmsg : r.message with
    | none =>
      rw [List.cons_append, readLoop_nil_message env r _ ws herr hmsg,
        readLoop_nil_message env r _ ws herr hmsg, ih _ hrest]
    | some p =>
      rw [List.cons_append, readLoop_message env r _ ws p herr hmsg,
        readLoop_message env r _ ws p herr hmsg, ih _ hrest]

/-- A list with a read error splits at its first error. -/
theorem split_first_error (l : List ReadResult) (h : ¬ noError l) :
    ∃ a r b e, l = a ++ r :: b ∧ noError a ∧ r.err = some e := by
  induction l with
  | nil => exact absurd noError_nil h
  | cons r rest ih =>
    cases herr : r.err with
    | some e => exact ⟨[], r, rest, e, rfl, noError_nil, herr⟩
    | none =>
      have hrest : ¬ noError rest := fun hr => h ((noError_cons r rest).mpr ⟨herr, hr⟩)
      obtain ⟨a, r2, b, e, hl, ha, he⟩ := ih hrest
      exact ⟨r :: a, r2, b, e, by rw [hl]; rfl, (noError_cons r a).mpr ⟨herr, ha⟩, he⟩

/-- After the first read error the loop has returned: what follows the error in
the list is never looked at. -/
theorem readLoop_after_error (env : Env) (a b c : List ReadResult) (r : ReadResult) (ws : Conn)
    (e : String) (ha : noError a) (he : r.err = some e) :
    readLoop env (a ++ r :: b) ws = readLoop env (a ++ r :: c) ws := by
  rw [readLoop_append env a _ ws ha, readLoop_append env a _ ws ha,
    readLoop_error env r b _ e he, readLoop_error env r c _ e he]

/-- The loop only adds operations, and a non-empty list of reads adds the read
of its head first.  What the handler writes among them are pongs with a nil
payload, and what the server writes besides is written by the library inside
one of the reads. -/
theorem readLoop_ops (env : Env) (reads : List ReadResult) (ws : Conn) :
    ∃ tail, (readLoop env reads ws).ops = ws.ops ++ tail ∧
      (reads = [] → tail = []) ∧
      (∀ r rest, reads = r :: rest → ∃ tail2, tail = ConnOp.ReadMessage r :: tail2) ∧
      (∀ m ∈ handlerWritten tail, m = (PongMessage, none)) ∧
      (∀ m ∈ written tail, m = (PongMessage, none) ∨ ∃ x ∈ reads, m ∈ libraryWrites x) := by
  induction reads generalizing ws with
  | nil =>
    refine ⟨[], by simp [readLoop], fun _ => rfl, ?_, ?_, ?_⟩
    · intro r rest h
      cases h
    · intro m hm
      simp [handlerWritten] at hm
    · intro m hm
      simp [written] at hm
  | cons r rest ih =>
    cases herr : r.err with
    | some e =>
      refine ⟨[ConnOp.ReadMessage r, ConnOp.Close], ?_, fun h => (by cases h), ?_, ?_, ?_⟩
      · rw [readLoop_error env r rest ws e herr]
        simp [Conn.Close]
      · intro r2 rest2 h
        cases h
        exact ⟨_, rfl⟩
      · intro m hm
        simp [handlerWritten] at hm
      · intro m hm
        simp only [written, List.append_nil] at hm
        exact Or.inr ⟨r, List.mem_cons_self r rest, hm⟩
    | none =>
      cases hmsg : r.message with
      | none =>
        obtain ⟨tail, h1, _, _, h4, h5⟩ := ih { ws with ops := ws.ops ++ [ConnOp.ReadMessage r] }
        refine ⟨ConnOp.ReadMessage r :: tail, ?_, fun h => (by cases h), ?_, ?_, ?_⟩
        · rw [readLoop_nil_message env r rest ws herr hmsg, h1]
          simp
        · intro r2 rest2 h
          cases h
          exact ⟨_, rfl⟩
        · intro m hm
          exact h4 m (by simpa [handlerWritten] using hm)
        · intro m hm
          simp only [written, List.mem_append] at hm
          rcases hm with hm | hm
          · exact Or.inr ⟨r, List.mem_cons_self r rest, hm⟩
          · rcases h5 m hm with h | ⟨x, hx, hmx⟩
            · exact Or.inl h
            · exact Or.inr ⟨x, List.mem_cons_of_mem r hx, hmx⟩
      | some p =>
        obtain ⟨tail, h1, _, _, h4, h5⟩ := ih
          (writePong env (setReadDeadline env { ws with ops := ws.ops ++ [ConnOp.ReadMessage r] }))
        refine ⟨ConnOp.ReadMessage r ::
          ConnOp.SetReadDeadline (env.now ws.clock + env.readDeadline) ::
          ConnOp.WriteControl PongMessage none (env.now (ws.clock + 1) + Second) :: tail,
          ?_, fun h => (by cases h), ?_, ?_, ?_⟩
        · rw [readLoop_message env r rest ws p herr hmsg, h1]
          simp [writePong, setReadDeadline]
        · intro r2 rest2 h
          cases h
          exact ⟨_, rfl⟩
        · intro m hm
          simp only [handlerWritten, List.mem_cons] at hm
          rcases hm with hm | hm
          · exact hm
          · exact h4 m hm
        · intro m hm
          simp only [written, List.mem_append, List.mem_cons] at hm
          rcases hm with hm | hm | hm
          · exact Or.inr ⟨r, List.mem_cons_self r rest, hm⟩
          · exact Or.inl hm
          · rcases h5 m hm with h | ⟨x, hx, hmx⟩
            · exact Or.inl h
            · exact Or.inr ⟨x, List.mem_cons_of_mem r hx, hmx⟩

end Handler

namespace Handler

/-- The read deadline in force after the loop was set at some reading of the
clock, not before the reading at which the one in force before the loop was
set. -/
theorem readLoop_deadline (env : Env) (reads : List ReadResult) (ws : Conn) (j : Nat)
    (hj : j < ws.clock) (hd : ws.deadline = some (env.now j + env.readDeadline)) :
    ∃ k, j ≤ k ∧ k < (readLoop env reads ws).clock ∧
      (readLoop env reads ws).deadline = some (env.now k + env.readDeadline) := by
  induction reads generalizing ws j with
  | nil => exact ⟨j, le_refl j, hj, hd⟩
  | cons r rest ih =>
    cases herr : r.err with
    | some e =>
      rw [readLoop_error env r rest ws e herr]
      exact ⟨j, le_refl j, hj, hd⟩
    | none =>
      cases hmsg : r.message with
      | none =>
        rw [readLoop_nil_message env r rest ws herr hmsg]
        exact ih _ j hj hd
      | some p =>
        rw [readLoop_message env r rest ws p herr hmsg]
        obtain ⟨k, hk1, hk2, hk3⟩ := ih
          (writePong env (setReadDeadline env { ws with ops := ws.ops ++ [ConnOp.ReadMessage r] }))
          ws.clock (by simp only [writePong, setReadDeadline]; omega)
          (by simp [writePong, setReadDeadline])
        exact ⟨k, le_trans (le_of_lt hj) hk1, hk2, hk3⟩

/-- After `read` a deadline is in force, set at an earlier reading of the clock. -/
theorem read_deadline (env : Env) (reads : List ReadResult) (ws : Conn) :
    ∃ k, k < (read env reads ws).clock ∧
      (read env reads ws).deadline = some (env.now k + env.readDeadline) := by
  obtain ⟨k, _, hk2, hk3⟩ := readLoop_deadline env reads (setReadDeadline env ws) ws.clock
    (by simp [setReadDeadline]) (by simp [setReadDeadline])
  exact ⟨k, hk2, hk3⟩

/-- One more read after `pre`, when `pre` has no error: the loop handles it from
the state `read` leaves after `pre`. -/
theorem read_snoc (env : Env) (pre : List ReadResult) (r : ReadResult) (rest : List ReadResult)
    (ws : Conn) (hpre : noError pre) :
    read env (pre ++ r :: rest) ws = readLoop env (r :: rest) (read env pre ws) := by
  unfold read
  exact readLoop_append env pre (r :: rest) _ hpre

end Handler

/-! ## Claims on the heartbeat handler -/

namespace Handler

/-- C6: for every message read without error, whatever its payload `p`, the
empty one included, the loop, right after the read, resets the read deadline of
the connection to the reading of the clock plus the read timeout window, then
sends one pong control message on the same connection, with a send deadline one
second after the next reading of the clock, and only then reads again. -/
theorem read_message_resets_then_pongs (env : Env) (ws : Conn) (pre : List ReadResult)
    (r : ReadResult) (p : List UInt8) (rest : List ReadResult)
    (hpre : noError pre) (herr : r.err = none) (hmsg : r.message = some p) :
    (read env (pre ++ [r]) ws).ops = (read env pre ws).ops ++
      [ConnOp.ReadMessage r,
       ConnOp.SetReadDeadline (env.now (read env pre ws).clock + env.readDeadline),
       ConnOp.WriteControl PongMessage none (env.now ((read env pre ws).clock + 1) + Second)] ∧
    (read env (pre ++ [r]) ws).deadline =
      some (env.now (read env pre ws).clock + env.readDeadline) ∧
    ∃ tail, (read env (pre ++ r :: rest) ws).ops = (read env (pre ++ [r]) ws).ops ++ tail ∧
      (rest = [] → tail = []) ∧
      (∀ r2 rest2, rest = r2 :: rest2 → ∃ tail2, tail = ConnOp.ReadMessage r2 :: tail2) := by
  have h1 : read env (pre ++ [r]) ws =
      writePong env (setReadDeadline env
        { read env pre ws with ops := (read env pre ws).ops ++ [ConnOp.ReadMessage r] }) := by
    rw [read_snoc env pre r [] ws hpre, readLoop_message env r [] _ p herr hmsg, readLoop_nil]
  have h2 : read env (pre ++ r :: rest) ws = readLoop env rest (read env (pre ++ [r]) ws) := by
    rw [h1, read_snoc env pre r rest ws hpre, readLoop_message env r rest _ p herr hmsg]
  refine ⟨?_, ?_, ?_⟩
  · rw [h1]
    simp [writePong, setReadDeadline]
  · rw [h1]
    simp [writePong, setReadDeadline]
  · obtain ⟨tail, ht1, ht2, ht3, _⟩ := readLoop_ops env rest (read env (pre ++ [r]) ws)
    exact ⟨tail, by rw [h2, ht1], ht2, ht3⟩

theorem read_message_resets_then_pongs_witness :
    noError [msg (some [1])] ∧
    (read tickEnv ([msg (some [1])] ++ [msg (some [])]) (Conn.fresh 0)).ops =
      (read tickEnv [msg (some [1])] (Conn.fresh 0)).ops ++
      [ConnOp.ReadMessage (msg (some [])),
       ConnOp.SetReadDeadline
         (tickEnv.now (read tickEnv [msg (some [1])] (Conn.fresh 0)).clock + tickEnv.readDeadline),
       ConnOp.WriteControl PongMessage none
         (tickEnv.now ((read tickEnv [msg (some [1])] (Conn.fresh 0)).clock + 1) + Second)] :=
  ⟨by decide,
   (read_message_resets_then_pongs tickEnv (Conn.fresh 0) [msg (some [1])] (msg (some [])) []
      [readErr] (by decide) rfl rfl).1⟩

/-- C7: the first read error ends the read loop.  The connection is closed, the
operations on it after the failed read are the `Close` alone, and the state is
the same whatever reads would have followed: no further read, deadline reset or
pong is performed. -/
theorem read_error_terminates (env : Env) (ws : Conn) (pre post : List ReadResult)
    (r : ReadResult) (e : String) (hpre : noError pre) (herr : r.err = some e) :
    (read env (pre ++ r :: post) ws).ops =
      (read env pre ws).ops ++ [ConnOp.ReadMessage r, ConnOp.Close] ∧
    (read env (pre ++ r :: post) ws).closed = true ∧
    (read env (pre ++ r :: post) ws).deadline = (read env pre ws).deadline ∧
    read env (pre ++ r :: post) ws = read env (pre ++ [r]) ws := by
  have h1 : read env (pre ++ r :: post) ws =
      Conn.Close { read env pre ws with ops := (read env pre ws).ops ++ [ConnOp.ReadMessage r] } := by
    rw [read_snoc env pre r post ws hpre, readLoop_error env r post _ e herr]
  refine ⟨?_, ?_, ?_, ?_⟩
  · rw [h1]
    simp [Conn.Close]
  · rw [h1]
    rfl
  · rw [h1]
    rfl
  · unfold read
    exact readLoop_after_error env pre post [] r _ e hpre herr

theorem read_error_terminates_witness :
    noError [msg (some [1])] ∧
    (read tickEnv ([msg (some [1])] ++ readErr :: [msg (some [2]), msg (some [3])])
      (Conn.fresh 0)).ops =
      (read tickEnv [msg (some [1])] (Conn.fresh 0)).ops ++
        [ConnOp.ReadMessage readErr, ConnOp.Close] :=
  ⟨by decide,
   (read_error_terminates tickEnv (Conn.fresh 0) [msg (some [1])]
      [msg (some [2]), msg (some [3])] readErr "i/o timeout" (by decide) rfl).1⟩

end Handler

namespace Handler

/-- One more read never moves the read deadline earlier, when the clock never
goes back. -/
theorem read_step_deadline (env : Env) (ws : Conn) (pre : List ReadResult) (r : ReadResult)
    (hmono : Monotone env.now) :
    ∃ d d2, (read env pre ws).deadline = some d ∧
      (read env (pre ++ [r]) ws).deadline = some d2 ∧ d ≤ d2 := by
  obtain ⟨j, hj, hd⟩ := read_deadline env pre ws
  by_cases hpre : noError pre
  · rw [read_snoc env pre r [] ws hpre]
    cases herr : r.err with
    | some e =>
      rw [readLoop_error env r [] _ e herr]
      exact ⟨_, _, hd, hd, le_refl _⟩
    | none =>
      cases hmsg : r.message with
      | none =>
        rw [readLoop_nil_message env r [] _ herr hmsg, readLoop_nil]
        exact ⟨_, _, hd, hd, le_refl _⟩
      | some p =>
        rw [readLoop_message env r [] _ p herr hmsg, readLoop_nil]
        refine ⟨_, env.now (read env pre ws).clock + env.readDeadline, hd, ?_, ?_⟩
        · simp [writePong, setReadDeadline]
        · have := hmono (le_of_lt hj)
          linarith
  · obtain ⟨a, r2, b, e, hl, ha, he⟩ := split_first_error pre hpre
    have hsame : read env (pre ++ [r]) ws = read env pre ws := by
      unfold read
      rw [hl, List.append_assoc, List.cons_append]
      exact readLoop_after_error env a (b ++ [r]) b r2 _ e ha he
    rw [hsame]
    exact ⟨_, _, hd, hd, le_refl _⟩

/-- C8: with a clock that never goes back and on which time passes while the
loop waits for a message, handling a message read without error, whatever its
payload, sets the read deadline to the reading of the clock plus the window,
which is strictly later than the deadline before; and no step of the read
loop, whatever was read, moves the deadline earlier. -/
theorem read_deadline_strictly_later (env : Env) (ws : Conn) (pre : List ReadResult)
    (r : ReadResult) (p : List UInt8) (hmono : Monotone env.now) (hpre : noError pre)
    (herr : r.err = none) (hmsg : r.message = some p)
    (hadv : clockAdvances env (read env pre ws)) :
    (∃ d d2, (read env pre ws).deadline = some d ∧
      (read env (pre ++ [r]) ws).deadline = some d2 ∧
      d2 = env.now (read env pre ws).clock + env.readDeadline ∧ d < d2) ∧
    ∀ (reads : List ReadResult) (x : ReadResult),
      ∃ d d2, (read env reads ws).deadline = some d ∧
        (read env (reads ++ [x]) ws).deadline = some d2 ∧ d ≤ d2 := by
  refine ⟨?_, fun reads x => read_step_deadline env ws reads x hmono⟩
  obtain ⟨j, hj, hd⟩ := read_deadline env pre ws
  rw [read_snoc env pre r [] ws hpre, readLoop_message env r [] _ p herr hmsg, readLoop_nil]
  refine ⟨_, env.now (read env pre ws).clock + env.readDeadline, hd, ?_, rfl, ?_⟩
  · simp [writePong, setReadDeadline]
  · have h1 : env.now j ≤ env.now ((read env pre ws).clock - 1) := hmono (by omega)
    have h2 : env.now ((read env pre ws).clock - 1) < env.now (read env pre ws).clock := hadv
    linarith

theorem read_deadline_strictly_later_witness :
    Monotone tickEnv.now ∧ noError [msg (some [1])] ∧
    clockAdvances tickEnv (read tickEnv [msg (some [1])] (Conn.fresh 0)) ∧
    ∃ d d2, (read tickEnv [msg (some [1])] (Conn.fresh 0)).deadline = some d ∧
      (read tickEnv ([msg (some [1])] ++ [msg (some [])]) (Conn.fresh 0)).deadline = some d2 ∧
      d < d2 :=
  ⟨fun _ _ h => Int.ofNat_le.mpr h, by decide, by decide,
   (read_deadline_strictly_later tickEnv (Conn.fresh 0) [msg (some [1])] (msg (some [])) []
      (fun _ _ h => Int.ofNat_le.mpr h) (by decide) rfl rfl (by decide)).1.imp
     (fun _ h => h.imp (fun _ h2 => ⟨h2.1, h2.2.1, h2.2.2.2⟩))⟩

/-- C9, as stated, fails: when the peer sends a ping with application data the
server writes a pong with that data, and when the peer sends a close the server
writes a close message; both are written inside `ReadMessage`, next to the
pong with a nil payload of the handler. -/
theorem heartbeat_writes_counterexample :
    Heartbeat tickEnv (.ok (Conn.fresh 0)) [pinged [1] [2], peerClosed] =
      some (read tickEnv [pinged [1] [2], peerClosed] (Conn.fresh 0)) ∧
    written (read tickEnv [pinged [1] [2], peerClosed] (Conn.fresh 0)).ops =
      [(PongMessage, some [1]), (PongMessage, none), (CloseMessage, some [3, 232])] := by
  decide

/-- C9, amended: whatever the reads and read errors on a heartbeat connection,
every message the handler and its read loop write themselves is a pong control
message with a nil payload, and every other message the server writes to the
connection is the answer of the library to a control frame of the peer, written
inside a read: a pong with the data of a ping, or a close message.  When the
upgrade fails there is no connection and nothing is written. -/
theorem heartbeat_writes (env : Env) (reads : List ReadResult) :
    (∀ e, Heartbeat env (.error e) reads = none) ∧
    ∀ ws, ∃ tail, Heartbeat env (.ok ws) reads = some (read env reads ws) ∧
      (read env reads ws).ops = ws.ops ++ tail ∧
      (∀ m ∈ handlerWritten tail, m = (PongMessage, none)) ∧
      (∀ m ∈ written tail, m = (PongMessage, none) ∨
        ∃ x ∈ reads, ∃ c ∈ x.control, defaultReply c = some m ∧
          ((∃ appData, c = Control.ping appData ∧ m = (PongMessage, some appData)) ∨
           (∃ code text, c = Control.close code text ∧
             m = (CloseMessage, some (FormatCloseMessage code []))))) := by
  refine ⟨fun _ => rfl, fun ws => ?_⟩
  obtain ⟨tail, h1, _, _, h4, h5⟩ := readLoop_ops env reads (setReadDeadline env ws)
  refine ⟨ConnOp.SetReadDeadline (env.now ws.clock + env.readDeadline) :: tail, rfl, ?_, ?_, ?_⟩
  · unfold read
    rw [h1]
    simp [setReadDeadline]
  · intro m hm
    exact h4 m (by simpa [handlerWritten] using hm)
  · intro m hm
    rcases h5 m (by simpa [written] using hm) with h | ⟨x, hx, hmx⟩
    · exact Or.inl h
    · obtain ⟨c, hc, hcm⟩ := List.mem_filterMap.mp hmx
      refine Or.inr ⟨x, hx, c, hc, hcm, ?_⟩
      cases c with
      | ping appData =>
        refine Or.inl ⟨appData, rfl, ?_⟩
        simp only [defaultReply, Option.some.injEq] at hcm
        exact hcm.symm
      | pong appData => simp [defaultReply] at hcm
      | close code text =>
        refine Or.inr ⟨code, text, rfl, ?_⟩
        simp only [defaultReply, Option.some.injEq] at hcm
        exact hcm.symm

end Handler
